import Mathlib

/-!
Geant4ePropagator: a shallow embedding.

The propagation adapter of `src/Geant4ePropagator.cc`: the two `propagate`
overloads (plane, cylinder) and the two `propagateWithPath` overloads, over
exact rational arithmetic.  The trajectory integrator (Geant4e) is a black box
that is passed in as a function; the engine, the integrator manager and the
heap cell of the stepping action are explicit state.
-/

namespace Geant4e

/-! ## Units, points and vectors -/

/-- Modelled from the spec: the length scale factor between the two
conventions (the source comments say "CMS uses cm and GeV while Geant4 uses mm
and MeV"); the constant itself comes from `CLHEP/Units/SystemOfUnits.h`, which
is not part of the sources. -/
def cm : ℚ := 10

/-- Modelled from the spec: the energy/momentum scale factor between the two
conventions (GeV on the CMS side, MeV on the Geant4 side); the constant comes
from `CLHEP/Units/SystemOfUnits.h`, which is not part of the sources. -/
def GeV : ℚ := 1000

/-- A point in the global CMS frame (cm). -/
structure GlobalPoint where
  x : ℚ
  y : ℚ
  z : ℚ
  deriving DecidableEq, Repr

/-- A vector in the global CMS frame. -/
structure GlobalVector where
  x : ℚ
  y : ℚ
  z : ℚ
  deriving DecidableEq, Repr

/-- A point in the local frame of a surface. -/
structure LocalPoint where
  x : ℚ
  y : ℚ
  z : ℚ
  deriving DecidableEq, Repr

/-- A vector in the local frame of a surface. -/
structure LocalVector where
  x : ℚ
  y : ℚ
  z : ℚ
  deriving DecidableEq, Repr

/-- The CLHEP three-vector, used for `Hep3Vector`, `HepPoint3D`,
`HepNormal3D`, `HepVector3D` and `G4ThreeVector` alike. -/
structure Hep3Vector where
  x : ℚ
  y : ℚ
  z : ℚ
  deriving DecidableEq, Repr

abbrev HepPoint3D := Hep3Vector
abbrev HepNormal3D := Hep3Vector
abbrev HepVector3D := Hep3Vector
abbrev G4ThreeVector := Hep3Vector

/-- The operator `GlobalVector * scalar`. -/
def GlobalVector.mul (v : GlobalVector) (s : ℚ) : GlobalVector :=
  ⟨v.x * s, v.y * s, v.z * s⟩

/-- The operator `GlobalVector / scalar`. -/
def GlobalVector.div (v : GlobalVector) (s : ℚ) : GlobalVector :=
  ⟨v.x / s, v.y / s, v.z / s⟩

/-- The squared magnitude of a global vector. -/
def GlobalVector.mag2 (v : GlobalVector) : ℚ :=
  v.x * v.x + v.y * v.y + v.z * v.z

/-- The method `unit()`: the vector scaled to unit length, or the vector
itself when its magnitude is zero.  The square root is supplied from outside,
it is not a rational function. -/
def GlobalVector.unit (sqrt : ℚ → ℚ) (v : GlobalVector) : GlobalVector :=
  if v.mag2 ≠ 0 then v.mul (1 / sqrt v.mag2) else v

/-- The rotation matrix `TkRotation<float>` of a surface. -/
structure TkRotation where
  xx : ℚ
  xy : ℚ
  xz : ℚ
  yx : ℚ
  yy : ℚ
  yz : ℚ
  zx : ℚ
  zy : ℚ
  zz : ℚ
  deriving DecidableEq, Repr

/-- The CLHEP rotation matrix handed to the cylinder target. -/
structure HepRotation where
  xx : ℚ
  xy : ℚ
  xz : ℚ
  yx : ℚ
  yy : ℚ
  yz : ℚ
  zx : ℚ
  zy : ℚ
  zz : ℚ
  deriving DecidableEq, Repr

/-- The method `TkRotation::multiplyInverse`: the transposed matrix applied to
a vector (local to global). -/
def TkRotation.multiplyInverse (r : TkRotation) (x y z : ℚ) : ℚ × ℚ × ℚ :=
  (r.xx * x + r.yx * y + r.zx * z,
   r.xy * x + r.yy * y + r.zy * z,
   r.xz * x + r.yz * y + r.zz * z)

/-! ## Surfaces -/

/-- A destination plane: a positioned and oriented surface. -/
structure Plane where
  position : GlobalPoint
  rotation : TkRotation
  deriving DecidableEq, Repr

/-- A destination cylinder. -/
structure Cylinder where
  radius : ℚ
  position : GlobalPoint
  rotation : TkRotation
  deriving DecidableEq, Repr

/-- The method `toGlobal(LocalPoint)` of a plane. -/
def Plane.toGlobalPoint (p : Plane) (lp : LocalPoint) : GlobalPoint :=
  let v := p.rotation.multiplyInverse lp.x lp.y lp.z
  ⟨v.1 + p.position.x, v.2.1 + p.position.y, v.2.2 + p.position.z⟩

/-- The method `toGlobal(LocalVector)` of a plane. -/
def Plane.toGlobalVector (p : Plane) (lv : LocalVector) : GlobalVector :=
  let v := p.rotation.multiplyInverse lv.x lv.y lv.z
  ⟨v.1, v.2.1, v.2.2⟩

/-- The surface a `TrajectoryStateOnSurface` is attached to. -/
inductive Surface where
  | plane (p : Plane)
  | cylinder (c : Cylinder)
  deriving DecidableEq, Repr

/-- The enumeration `SurfaceSide` of `SurfaceSideDefinition.h`. -/
inductive SurfaceSide where
  | positiveSide
  | negativeSide
  | atCenterOfSurface
  deriving DecidableEq, Repr

/-- The enumeration `PropagationDirection`. -/
inductive PropagationDirection where
  | oppositeToMomentum
  | alongMomentum
  | anyDirection
  deriving DecidableEq, Repr

/-! ## Conversions between the two conventions -/

/-- Modelled from the spec: `TrackPropagation::globalPointToHep3Vector` of
`ConvertFromToCLHEP.h`, which is not part of the sources: a point is converted
"across a fixed linear length-unit scale factor" (cm to mm). -/
def globalPointToHep3Vector (r : GlobalPoint) : Hep3Vector :=
  ⟨r.x * cm, r.y * cm, r.z * cm⟩

/-- Modelled from the spec: `TrackPropagation::globalPointToHepPoint3D` of
`ConvertFromToCLHEP.h`, which is not part of the sources: the same point
conversion, to the `HepPoint3D` type. -/
def globalPointToHepPoint3D (r : GlobalPoint) : HepPoint3D :=
  ⟨r.x * cm, r.y * cm, r.z * cm⟩

/-- Modelled from the spec: `TrackPropagation::hepPoint3DToGlobalPoint` of
`ConvertFromToCLHEP.h`, which is not part of the sources: the point conversion
back (mm to cm). -/
def hepPoint3DToGlobalPoint (r : HepPoint3D) : GlobalPoint :=
  ⟨r.x / cm, r.y / cm, r.z / cm⟩

/-- Modelled from the spec: `TrackPropagation::globalVectorToHep3Vector` of
`ConvertFromToCLHEP.h`, which is not part of the sources: a change of vector
type; the momentum scale is applied by the caller ("applied only when
converting momentum"), as the source does with `*GeV`. -/
def globalVectorToHep3Vector (p : GlobalVector) : Hep3Vector :=
  ⟨p.x, p.y, p.z⟩

/-- Modelled from the spec: `TrackPropagation::globalVectorToHepNormal3D` of
`ConvertFromToCLHEP.h`, which is not part of the sources: a unit normal keeps
its magnitude, so no scale is applied. -/
def globalVectorToHepNormal3D (p : GlobalVector) : HepNormal3D :=
  ⟨p.x, p.y, p.z⟩

/-- Modelled from the spec: `TrackPropagation::hep3VectorToGlobalVector` of
`ConvertFromToCLHEP.h`, which is not part of the sources: the change of vector
type back; the caller divides by `GeV`. -/
def hep3VectorToGlobalVector (p : Hep3Vector) : GlobalVector :=
  ⟨p.x, p.y, p.z⟩

/-- Modelled from the spec: `TrackPropagation::tkRotationFToHepRotation` of
`ConvertFromToCLHEP.h`, which is not part of the sources: a rotation is
converted with "no unit scaling (dimensionless)". -/
def tkRotationFToHepRotation (r : TkRotation) : HepRotation :=
  ⟨r.xx, r.xy, r.xz, r.yx, r.yy, r.yz, r.zx, r.zy, r.zz⟩

/-! ## Error matrices and states -/

/-- The 5x5 error matrix of the integrator (`G4ErrorTrajErr`, a CLHEP
`HepSymMatrix`). -/
abbrev G4ErrorTrajErr := Fin 5 → Fin 5 → ℚ

/-- The 5x5 symmetric matrix of the CMS side. -/
abbrev AlgebraicSymMatrix55 := Fin 5 → Fin 5 → ℚ

/-- The constructor `HepSymMatrix(5, init)`: the zero matrix for `init = 0`,
the identity matrix for `init = 1`. -/
def G4ErrorTrajErr.ctor (init : Nat) : G4ErrorTrajErr :=
  fun i j => if init = 1 ∧ i = j then 1 else 0

/-- The curvilinear error of a CMS trajectory state. -/
structure CurvilinearTrajectoryError where
  theCovarianceMatrix : AlgebraicSymMatrix55
  deriving DecidableEq

/-- A pointer to the magnetic field. -/
abbrev MagneticFieldPtr := Nat

/-- Position, momentum, charge and field reference of a trajectory. -/
structure GlobalTrajectoryParameters where
  position : GlobalPoint
  momentum : GlobalVector
  charge : Int
  magneticField : MagneticFieldPtr
  deriving DecidableEq, Repr

/-- The input state: the trajectory parameters and the curvilinear error the
caller attached to them, if any. -/
structure FreeTrajectoryState where
  parameters : GlobalTrajectoryParameters
  curvilinearError : Option CurvilinearTrajectoryError
  deriving DecidableEq

def FreeTrajectoryState.position (fts : FreeTrajectoryState) : GlobalPoint :=
  fts.parameters.position

def FreeTrajectoryState.momentum (fts : FreeTrajectoryState) : GlobalVector :=
  fts.parameters.momentum

def FreeTrajectoryState.charge (fts : FreeTrajectoryState) : Int :=
  fts.parameters.charge

/-- The result of a propagation. -/
structure TrajectoryStateOnSurface where
  globalParameters : GlobalTrajectoryParameters
  curvilinearError : CurvilinearTrajectoryError
  surface : Surface
  surfaceSide : SurfaceSide
  deriving DecidableEq

/-- The integrator-native free state. -/
structure G4ErrorFreeTrajState where
  particleName : String
  position : Hep3Vector
  momentum : Hep3Vector
  error : G4ErrorTrajErr
  deriving DecidableEq

/-- The target handed to the integrator. -/
inductive G4ErrorSurfaceTarget where
  | planeSurface (normal : HepNormal3D) (point : HepPoint3D)
  | cylSurface (radius : ℚ) (trans : G4ThreeVector) (rotm : HepRotation)
  deriving DecidableEq, Repr

/-- The direction mode of the integrator. -/
inductive G4ErrorMode where
  | PropForwards
  | PropBackwards
  deriving DecidableEq, Repr

/-! ## The integrator and the process state -/

/-- What one call of the integrator's `Propagate` does: the state object as it
is left after the in-place update, the status code, and the lengths of the
steps it reports, in order, to the registered stepping action. -/
structure PropagateOutcome where
  trajState : G4ErrorFreeTrajState
  ierr : Int
  steps : List ℚ

/-- The collaborators the adapter does not compute itself.
* `Propagate` is the behaviour of the trajectory integrator, a black box; its
  first argument says whether `InitGeant4e` has run.
* `sqrt` is the square root used by `unit()`.
* `g4ErrorTrajErrToAlgebraicSymMatrix55` is the error-matrix conversion of
  `ConvertFromToCLHEP.h`, which is not part of the sources and which the spec
  does not pin down; it is left arbitrary. -/
structure Collaborators where
  Propagate : Bool → G4ErrorFreeTrajState → G4ErrorSurfaceTarget → G4ErrorMode →
    PropagateOutcome
  sqrt : ℚ → ℚ
  g4ErrorTrajErrToAlgebraicSymMatrix55 : G4ErrorTrajErr → AlgebraicSymMatrix55

/-- Modelled from the spec: the class `Geant4eSteppingAction`, whose header
and implementation are not part of the sources: an observer holding "a running
total" of the path length of the steps reported since the last reset. -/
structure Geant4eSteppingAction where
  theTrackLength : ℚ
  deriving DecidableEq, Repr

/-- Modelled from the spec: the constructor of `Geant4eSteppingAction` (not
part of the sources); a new accumulator starts at zero. -/
def Geant4eSteppingAction.ctor : Geant4eSteppingAction :=
  ⟨0⟩

/-- Modelled from the spec: `Geant4eSteppingAction::reset` (not part of the
sources): "`reset()` zeroes the running total". -/
def Geant4eSteppingAction.reset (_a : Geant4eSteppingAction) : Geant4eSteppingAction :=
  ⟨0⟩

/-- Modelled from the spec: `Geant4eSteppingAction::trackLength` (not part of
the sources): "`total()` returns the current running total without
resetting". -/
def Geant4eSteppingAction.trackLength (a : Geant4eSteppingAction) : ℚ :=
  a.theTrackLength

/-- Modelled from the spec: `Geant4eSteppingAction::UserSteppingAction` (not
part of the sources): "on every integration step the integrator reports, the
accumulator adds that step's scalar path length to a running total". -/
def Geant4eSteppingAction.UserSteppingAction (a : Geant4eSteppingAction) (stepLength : ℚ) :
    Geant4eSteppingAction :=
  ⟨a.theTrackLength + stepLength⟩

/-- The integrator manager `G4ErrorPropagatorManager`, as far as the adapter
drives it: how often `InitGeant4e` and `SetUserAction` have run, and the
address of the registered stepping action. -/
structure G4ErrorPropagatorManager where
  initGeant4eCalls : Nat
  setUserActionCalls : Nat
  userAction : Option Nat
  deriving DecidableEq, Repr

/-- The members of the engine.  `theSteppingAction` is a pointer: `none` is
the null pointer, `some a` the address of a heap cell. -/
structure Geant4ePropagator where
  propagationDirection : PropagationDirection
  theField : MagneticFieldPtr
  theParticleName : String
  theSteppingAction : Option Nat
  deriving DecidableEq, Repr

/-- The state the calls act on: the engine, the manager it points to, and the
heap of stepping actions (the address of a cell is its index; every
`new Geant4eSteppingAction` appends a cell). -/
structure World where
  self : Geant4ePropagator
  theG4eManager : G4ErrorPropagatorManager
  heap : List Geant4eSteppingAction
  deriving DecidableEq, Repr

/-- The constructor `Geant4ePropagator::Geant4ePropagator`: the members are
set from the arguments and `theSteppingAction` is the null pointer.  The
manager has not been driven yet. -/
def Geant4ePropagator.ctor (field : MagneticFieldPtr) (particleName : String)
    (dir : PropagationDirection) : World :=
  { self :=
      { propagationDirection := dir
        theField := field
        theParticleName := particleName
        theSteppingAction := none }
    theG4eManager := { initGeant4eCalls := 0, setUserActionCalls := 0, userAction := none }
    heap := [] }

/-- The engine is Uninitialized: it holds no stepping action. -/
def Uninitialized (w : World) : Prop :=
  w.self.theSteppingAction = none

instance (w : World) : Decidable (Uninitialized w) := by
  unfold Uninitialized; infer_instance

/-- The engine is Ready: the integrator has been initialised, the engine holds
a stepping action that lives on the heap, and that action is the one registered
with the manager. -/
def Ready (w : World) : Prop :=
  match w.self.theSteppingAction with
  | none => False
  | some a =>
    a < w.heap.length ∧ w.theG4eManager.userAction = some a ∧
      0 < w.theG4eManager.initGeant4eCalls

instance (w : World) : Decidable (Ready w) := by
  unfold Ready; cases w.self.theSteppingAction <;> infer_instance

/-- The call `theG4eManager->InitGeant4e()`. -/
def InitGeant4e (w : World) : World :=
  { w with theG4eManager :=
      { w.theG4eManager with initGeant4eCalls := w.theG4eManager.initGeant4eCalls + 1 } }

/-- The statement `theSteppingAction = new Geant4eSteppingAction`. -/
def newSteppingAction (w : World) : World :=
  { w with
    self := { w.self with theSteppingAction := some w.heap.length }
    heap := w.heap ++ [Geant4eSteppingAction.ctor] }

/-- The call `theG4eManager->SetUserAction(theSteppingAction)`. -/
def SetUserAction (w : World) : World :=
  { w with theG4eManager :=
      { w.theG4eManager with
        setUserActionCalls := w.theG4eManager.setUserActionCalls + 1
        userAction := w.self.theSteppingAction } }

/-- One reported step reaches the stepping action at address `a`. -/
def reportStep (heap : List Geant4eSteppingAction) (a : Nat) (stepLength : ℚ) :
    List Geant4eSteppingAction :=
  heap.modify (fun act => act.UserSteppingAction stepLength) a

/-- The call `theG4eManager->Propagate(state, target, mode)`: the integrator
runs, every step it takes is reported to the registered stepping action (if
one is registered), and the state object and status code are handed back. -/
def G4ErrorPropagatorManager.Propagate (ext : Collaborators) (w : World)
    (g4eTrajState : G4ErrorFreeTrajState) (g4eTarget : G4ErrorSurfaceTarget)
    (mode : G4ErrorMode) : (Int × G4ErrorFreeTrajState) × World :=
  let out := ext.Propagate (decide (0 < w.theG4eManager.initGeant4eCalls))
    g4eTrajState g4eTarget mode
  let heap :=
    match w.theG4eManager.userAction with
    | some a => out.steps.foldl (fun h len => reportStep h a len) w.heap
    | none => w.heap
  ((out.ierr, out.trajState), { w with heap := heap })

/-! ## The propagation calls -/

/-- The overload `Geant4ePropagator::propagate(ftsStart, pDest)` for a plane.
The result and the state after the call. -/
def propagatePlane (ext : Collaborators) (w : World) (ftsStart : FreeTrajectoryState)
    (pDest : Plane) : TrajectoryStateOnSurface × World :=
  -- if (!theSteppingAction) { InitGeant4e; new Geant4eSteppingAction; SetUserAction }
  let w :=
    match w.self.theSteppingAction with
    | none => SetUserAction (newSteppingAction (InitGeant4e w))
    | some _ => w
  -- Construct the target surface
  let posPlane := pDest.toGlobalPoint ⟨0, 0, 0⟩
  let normalPlane := pDest.toGlobalVector ⟨0, 0, 1⟩
  let normalPlane := normalPlane.unit ext.sqrt
  let surfPos := globalPointToHepPoint3D posPlane
  let surfNorm := globalVectorToHepNormal3D normalPlane
  let g4eTarget := G4ErrorSurfaceTarget.planeSurface surfNorm surfPos
  -- Find initial point
  let cmsInitPos := ftsStart.position
  let cmsInitMom := ftsStart.momentum
  let g4InitPos := globalPointToHep3Vector cmsInitPos
  let g4InitMom := globalVectorToHep3Vector (cmsInitMom.mul GeV)
  -- Set particle name
  let charge := ftsStart.charge
  let particleName := w.self.theParticleName
  let particleName := if charge > 0 then particleName ++ "+" else particleName ++ "-"
  -- Set the error and trajectories
  let g4error := G4ErrorTrajErr.ctor 1
  let g4eTrajState : G4ErrorFreeTrajState := ⟨particleName, g4InitPos, g4InitMom, g4error⟩
  -- Set the mode of propagation according to the propagation direction
  let mode :=
    if w.self.propagationDirection = PropagationDirection.oppositeToMomentum then
      G4ErrorMode.PropBackwards
    else G4ErrorMode.PropForwards
  -- Propagate
  let r := G4ErrorPropagatorManager.Propagate ext w g4eTrajState g4eTarget mode
  let _ierr := r.1.1
  let g4eTrajState := r.1.2
  let w := r.2
  -- Retrieve the state in the end
  let posEnd := g4eTrajState.position
  let momEnd := g4eTrajState.momentum
  let posEndGV := hepPoint3DToGlobalPoint posEnd
  let momEndGV := (hep3VectorToGlobalVector momEnd).div GeV
  let tParsDest : GlobalTrajectoryParameters := ⟨posEndGV, momEndGV, charge, w.self.theField⟩
  let g4errorEnd := g4eTrajState.error
  let curvError : CurvilinearTrajectoryError :=
    ⟨ext.g4ErrorTrajErrToAlgebraicSymMatrix55 g4errorEnd⟩
  let side := SurfaceSide.atCenterOfSurface
  (⟨tParsDest, curvError, Surface.plane pDest, side⟩, w)

/-- The overload `Geant4ePropagator::propagate(ftsStart, cDest)` for a
cylinder.  The result and the state after the call. -/
def propagateCylinder (ext : Collaborators) (w : World) (ftsStart : FreeTrajectoryState)
    (cDest : Cylinder) : TrajectoryStateOnSurface × World :=
  -- Get Cylinder parameters
  let radCyl := cDest.radius * cm
  let posCyl := globalPointToHep3Vector cDest.position
  let rotCyl := tkRotationFToHepRotation cDest.rotation
  -- Set the target surface
  let g4eTarget := G4ErrorSurfaceTarget.cylSurface radCyl posCyl rotCyl
  -- Get the starting point and direction
  let g4InitMom := globalVectorToHep3Vector (ftsStart.momentum.mul GeV)
  let g4InitPos := globalPointToHep3Vector ftsStart.position
  -- Set particle name
  let charge := ftsStart.charge
  let particleName := w.self.theParticleName
  let particleName := if charge > 0 then particleName ++ "+" else particleName ++ "-"
  -- Set the error and trajectories
  let g4error := G4ErrorTrajErr.ctor 0
  let g4eTrajState : G4ErrorFreeTrajState := ⟨particleName, g4InitPos, g4InitMom, g4error⟩
  -- Set the mode of propagation according to the propagation direction
  let mode :=
    if w.self.propagationDirection = PropagationDirection.oppositeToMomentum then
      G4ErrorMode.PropBackwards
    else G4ErrorMode.PropForwards
  -- Propagate (the status code is not captured)
  let r := G4ErrorPropagatorManager.Propagate ext w g4eTrajState g4eTarget mode
  let g4eTrajState := r.1.2
  let w := r.2
  -- Retrieve the state in the end
  let posEnd := g4eTrajState.position
  let momEnd := g4eTrajState.momentum
  let posEndGV := hepPoint3DToGlobalPoint posEnd
  let momEndGV := (hep3VectorToGlobalVector momEnd).div GeV
  let tParsDest : GlobalTrajectoryParameters := ⟨posEndGV, momEndGV, charge, w.self.theField⟩
  let g4errorEnd := g4eTrajState.error
  let curvError : CurvilinearTrajectoryError :=
    ⟨ext.g4ErrorTrajErrToAlgebraicSymMatrix55 g4errorEnd⟩
  let side := SurfaceSide.atCenterOfSurface
  (⟨tParsDest, curvError, Surface.cylinder cDest, side⟩, w)

/-- The order in which the two arguments of
`TsosPP(propagate(ftsStart, dest), theSteppingAction->trackLength())` are
evaluated.  Both are arguments of one constructor call, and C++ leaves the
order of evaluation of the arguments of a call unspecified, so the source
fixes neither order. -/
inductive ArgumentOrder where
  | propagateFirst
  | trackLengthFirst
  deriving DecidableEq, Repr

/-- The call `theSteppingAction->reset()`: `none` when the pointer is null (or
does not address a heap cell), the state after the reset otherwise. -/
def resetSteppingAction (w : World) : Option World :=
  match w.self.theSteppingAction with
  | none => none
  | some a =>
    if a < w.heap.length then
      some { w with heap := w.heap.modify Geant4eSteppingAction.reset a }
    else none

/-- The call `theSteppingAction->trackLength()`: `none` when the pointer is
null (or does not address a heap cell). -/
def readTrackLength (w : World) : Option ℚ :=
  match w.self.theSteppingAction with
  | none => none
  | some a => w.heap[a]?.map Geant4eSteppingAction.trackLength

/-- The body shared by the two `propagateWithPath` overloads, for a
`propagate` overload `prop`: reset the stepping action, then build the pair
from the result of `prop` and the track length, the two being evaluated in the
given order.  The first component is `none` when a null pointer is
dereferenced; the second is the state reached. -/
def propagateWithPathVia (prop : World → TrajectoryStateOnSurface × World)
    (order : ArgumentOrder) (w : World) :
    Option (TrajectoryStateOnSurface × ℚ) × World :=
  match resetSteppingAction w with
  | none => (none, w)
  | some w1 =>
    match order with
    | ArgumentOrder.propagateFirst =>
      let r := prop w1
      match readTrackLength r.2 with
      | none => (none, r.2)
      | some len => (some (r.1, len), r.2)
    | ArgumentOrder.trackLengthFirst =>
      match readTrackLength w1 with
      | none => (none, w1)
      | some len =>
        let r := prop w1
        (some (r.1, len), r.2)

/-- The overload `Geant4ePropagator::propagateWithPath(ftsStart, pDest)` for a
plane. -/
def propagateWithPathPlane (ext : Collaborators) (order : ArgumentOrder) (w : World)
    (ftsStart : FreeTrajectoryState) (pDest : Plane) :
    Option (TrajectoryStateOnSurface × ℚ) × World :=
  propagateWithPathVia (fun w1 => propagatePlane ext w1 ftsStart pDest) order w

/-- The overload `Geant4ePropagator::propagateWithPath(ftsStart, cDest)` for a
cylinder. -/
def propagateWithPathCylinder (ext : Collaborators) (order : ArgumentOrder) (w : World)
    (ftsStart : FreeTrajectoryState) (cDest : Cylinder) :
    Option (TrajectoryStateOnSurface × ℚ) × World :=
  propagateWithPathVia (fun w1 => propagateCylinder ext w1 ftsStart cDest) order w

/-! ## Sequences of calls on one engine -/

/-- A call a client can make on the engine. -/
inductive Call where
  | propagatePlane (ftsStart : FreeTrajectoryState) (pDest : Plane)
  | propagateCylinder (ftsStart : FreeTrajectoryState) (cDest : Cylinder)
  | propagateWithPathPlane (ftsStart : FreeTrajectoryState) (pDest : Plane)
  | propagateWithPathCylinder (ftsStart : FreeTrajectoryState) (cDest : Cylinder)

/-- The state one call leaves, and whether the call completed. -/
def Call.exec (ext : Collaborators) (order : ArgumentOrder) (w : World) : Call → World × Bool
  | Call.propagatePlane f p => ((Geant4e.propagatePlane ext w f p).2, true)
  | Call.propagateCylinder f c => ((Geant4e.propagateCylinder ext w f c).2, true)
  | Call.propagateWithPathPlane f p =>
    let r := Geant4e.propagateWithPathPlane ext order w f p
    (r.2, r.1.isSome)
  | Call.propagateWithPathCylinder f c =>
    let r := Geant4e.propagateWithPathCylinder ext order w f c
    (r.2, r.1.isSome)

/-- The state reached by a sequence of calls; the sequence ends early at a
call that does not complete. -/
def runCalls (ext : Collaborators) (order : ArgumentOrder) : World → List Call → World
  | w, [] => w
  | w, c :: cs =>
    let r := c.exec ext order w
    if r.2 then runCalls ext order r.1 cs else r.1

/-! ## Sample inputs -/

/-- An integrator that leaves the state where it is, reports one step of
length 100 and returns status 0. -/
def idleIntegrator : Collaborators :=
  { Propagate := fun _ st _ _ => ⟨st, 0, [100]⟩
    sqrt := fun q => q
    g4ErrorTrajErrToAlgebraicSymMatrix55 := fun e => e }

/-- A muon at the origin with momentum (0, 0, 10) GeV and charge -1, carrying
no error matrix. -/
def sampleState : FreeTrajectoryState :=
  { parameters := ⟨⟨0, 0, 0⟩, ⟨0, 0, 10⟩, -1, 7⟩, curvilinearError := none }

/-- The plane z = 100 cm, with the identity orientation. -/
def samplePlane : Plane :=
  { position := ⟨0, 0, 100⟩, rotation := ⟨1, 0, 0, 0, 1, 0, 0, 0, 1⟩ }

/-- The cylinder of radius 50 cm around the z axis. -/
def sampleCylinder : Cylinder :=
  { radius := 50, position := ⟨0, 0, 0⟩, rotation := ⟨1, 0, 0, 0, 1, 0, 0, 0, 1⟩ }

/-- A freshly constructed engine. -/
def freshEngine : World :=
  Geant4ePropagator.ctor 7 "mu" PropagationDirection.alongMomentum

/-- A Ready engine: the state a fresh engine is in after one lazy
initialisation, with the accumulator holding a total of 42 from earlier
calls. -/
def readyEngine : World :=
  { self :=
      { propagationDirection := PropagationDirection.alongMomentum
        theField := 7
        theParticleName := "mu"
        theSteppingAction := some 0 }
    theG4eManager := { initGeant4eCalls := 1, setUserActionCalls := 1, userAction := some 0 }
    heap := [⟨42⟩] }

/-! ## The blocks of the `propagate` bodies, named

Each definition below repeats one commented block of the source; the lemmas
`propagatePlane_eq` and `propagateCylinder_eq` show that the two overloads are
exactly the composition of these blocks. -/

/-- The lazy initialisation block at the head of the plane overload. -/
def lazyInit (w : World) : World :=
  match w.self.theSteppingAction with
  | none => SetUserAction (newSteppingAction (InitGeant4e w))
  | some _ => w

/-- The target the plane overload builds. -/
def planeTarget (ext : Collaborators) (pDest : Plane) : G4ErrorSurfaceTarget :=
  G4ErrorSurfaceTarget.planeSurface
    (globalVectorToHepNormal3D ((pDest.toGlobalVector ⟨0, 0, 1⟩).unit ext.sqrt))
    (globalPointToHepPoint3D (pDest.toGlobalPoint ⟨0, 0, 0⟩))

/-- The target the cylinder overload builds. -/
def cylinderTarget (cDest : Cylinder) : G4ErrorSurfaceTarget :=
  G4ErrorSurfaceTarget.cylSurface (cDest.radius * cm)
    (globalPointToHep3Vector cDest.position) (tkRotationFToHepRotation cDest.rotation)

/-- The particle name both overloads derive from the charge. -/
def particleNameFor (w : World) (charge : Int) : String :=
  if charge > 0 then w.self.theParticleName ++ "+" else w.self.theParticleName ++ "-"

/-- The integrator-native state the plane overload builds. -/
def initialTrajStatePlane (w : World) (ftsStart : FreeTrajectoryState) : G4ErrorFreeTrajState :=
  ⟨particleNameFor w ftsStart.charge, globalPointToHep3Vector ftsStart.position,
    globalVectorToHep3Vector (ftsStart.momentum.mul GeV), G4ErrorTrajErr.ctor 1⟩

/-- The integrator-native state the cylinder overload builds. -/
def initialTrajStateCylinder (w : World) (ftsStart : FreeTrajectoryState) :
    G4ErrorFreeTrajState :=
  ⟨particleNameFor w ftsStart.charge, globalPointToHep3Vector ftsStart.position,
    globalVectorToHep3Vector (ftsStart.momentum.mul GeV), G4ErrorTrajErr.ctor 0⟩

/-- The direction mode both overloads select. -/
def selectMode (w : World) : G4ErrorMode :=
  if w.self.propagationDirection = PropagationDirection.oppositeToMomentum then
    G4ErrorMode.PropBackwards
  else G4ErrorMode.PropForwards

/-- The result both overloads assemble from the state object the integrator
left, the charge of the input state, the field of the engine and the
destination surface. -/
def assembleResult (ext : Collaborators) (w : World) (ftsStart : FreeTrajectoryState)
    (dest : Surface) (g4eTrajState : G4ErrorFreeTrajState) : TrajectoryStateOnSurface :=
  ⟨⟨hepPoint3DToGlobalPoint g4eTrajState.position,
      (hep3VectorToGlobalVector g4eTrajState.momentum).div GeV,
      ftsStart.charge, w.self.theField⟩,
    ⟨ext.g4ErrorTrajErrToAlgebraicSymMatrix55 g4eTrajState.error⟩,
    dest, SurfaceSide.atCenterOfSurface⟩

/-- What the integrator does in the plane overload's call. -/
def planeOutcome (ext : Collaborators) (w : World) (ftsStart : FreeTrajectoryState)
    (pDest : Plane) : PropagateOutcome :=
  ext.Propagate (decide (0 < (lazyInit w).theG4eManager.initGeant4eCalls))
    (initialTrajStatePlane (lazyInit w) ftsStart) (planeTarget ext pDest)
    (selectMode (lazyInit w))

/-- What the integrator does in the cylinder overload's call. -/
def cylinderOutcome (ext : Collaborators) (w : World) (ftsStart : FreeTrajectoryState)
    (cDest : Cylinder) : PropagateOutcome :=
  ext.Propagate (decide (0 < w.theG4eManager.initGeant4eCalls))
    (initialTrajStateCylinder w ftsStart) (cylinderTarget cDest) (selectMode w)

/-- An integrator that leaves the state where it is, reports one step of
length 100 and returns the nonzero status 3. -/
def failingIntegrator : Collaborators :=
  { Propagate := fun _ st _ _ => ⟨st, 3, [100]⟩
    sqrt := fun q => q
    g4ErrorTrajErrToAlgebraicSymMatrix55 := fun e => e }

/-- The sample state with a caller-supplied error matrix attached (the
identity scaled by 1/1000000, as the analyzer of the test directory builds
it). -/
def sampleStateWithError : FreeTrajectoryState :=
  { parameters := ⟨⟨0, 0, 0⟩, ⟨0, 0, 10⟩, -1, 7⟩
    curvilinearError := some ⟨fun i j => if i = j then 1 / 1000000 else 0⟩ }

/-- The second state has the engine and the manager of the first, and as many
heap cells: no member was reassigned, no manager call was made, nothing was
allocated. -/
def Frame (w w1 : World) : Prop :=
  w1.self = w.self ∧ w1.theG4eManager = w.theG4eManager ∧ w1.heap.length = w.heap.length

instance (w w1 : World) : Decidable (Frame w w1) := by
  unfold Frame; infer_instance

/-- The bookkeeping of the lazy initialisation: an engine without a stepping
action has made no `InitGeant4e` or `SetUserAction` call and allocated nothing;
an engine with one has made each call once and allocated one cell. -/
def InitOnce (w : World) : Prop :=
  match w.self.theSteppingAction with
  | none =>
    w.theG4eManager.initGeant4eCalls = 0 ∧ w.theG4eManager.setUserActionCalls = 0 ∧
      w.heap.length = 0
  | some _ =>
    w.theG4eManager.initGeant4eCalls = 1 ∧ w.theG4eManager.setUserActionCalls = 1 ∧
      w.heap.length = 1

instance (w : World) : Decidable (InitOnce w) := by
  unfold InitOnce; cases w.self.theSteppingAction <;> infer_instance

/-- The collaborators `ext` with the status code of every integrator call
replaced by `status`; the state object and the reported steps are as in
`ext`. -/
def withStatus (status : Int) (ext : Collaborators) : Collaborators :=
  { ext with
    Propagate := fun i st t m => { ext.Propagate i st t m with ierr := status } }

/-- The direction mode as the claim words it, to be compared with the mode
the source selects (`selectMode`): backwards for `oppositeToMomentum`, forwards
for `alongMomentum` and for the value that is neither. -/
def claimedDirectionMode : PropagationDirection → G4ErrorMode
  | PropagationDirection.oppositeToMomentum => G4ErrorMode.PropBackwards
  | PropagationDirection.alongMomentum => G4ErrorMode.PropForwards
  | PropagationDirection.anyDirection => G4ErrorMode.PropForwards

/-- The particle identity as the claim words it, to be compared with the name
the source derives (`particleNameFor`): the base name followed by "+" for a
positive charge, by "-" for a negative charge, and by "-" for the charge 0. -/
def claimedParticleIdentity (baseName : String) (charge : Int) : String :=
  if 0 < charge then baseName ++ "+"
  else if charge < 0 then baseName ++ "-"
  else baseName ++ "-"

/-- An integrator that hands back a state object with another particle name,
position, momentum and error matrix than it was given. -/
def scramblingIntegrator : Collaborators :=
  { Propagate := fun _ _ _ _ => ⟨⟨"e+", ⟨1, 2, 3⟩, ⟨4, 5, 6⟩, fun _ _ => 9⟩, 1, []⟩
    sqrt := fun q => q
    g4ErrorTrajErrToAlgebraicSymMatrix55 := fun e => e }

/-! ## Supporting lemmas -/

theorem propagatePlane_eq (ext : Collaborators) (w : World) (ftsStart : FreeTrajectoryState)
    (pDest : Plane) :
    propagatePlane ext w ftsStart pDest =
      (assembleResult ext (lazyInit w) ftsStart (Surface.plane pDest)
          (planeOutcome ext w ftsStart pDest).trajState,
        (G4ErrorPropagatorManager.Propagate ext (lazyInit w)
          (initialTrajStatePlane (lazyInit w) ftsStart) (planeTarget ext pDest)
          (selectMode (lazyInit w))).2) :=
  rfl

theorem propagateCylinder_eq (ext : Collaborators) (w : World)
    (ftsStart : FreeTrajectoryState) (cDest : Cylinder) :
    propagateCylinder ext w ftsStart cDest =
      (assembleResult ext w ftsStart (Surface.cylinder cDest)
          (cylinderOutcome ext w ftsStart cDest).trajState,
        (G4ErrorPropagatorManager.Propagate ext w
          (initialTrajStateCylinder w ftsStart) (cylinderTarget cDest) (selectMode w)).2) :=
  rfl

theorem foldl_reportStep_length (a : Nat) (steps : List ℚ) (heap : List Geant4eSteppingAction) :
    (steps.foldl (fun h len => reportStep h a len) heap).length = heap.length := by
  induction steps generalizing heap with
  | nil => rfl
  | cons s ss ih =>
    rw [List.foldl_cons, ih]
    simp [reportStep]

theorem foldl_reportStep_getElem (a : Nat) (steps : List ℚ)
    (heap : List Geant4eSteppingAction) :
    (steps.foldl (fun h len => reportStep h a len) heap)[a]? =
      heap[a]?.map (fun act => ⟨act.theTrackLength + steps.sum⟩) := by
  induction steps generalizing heap with
  | nil =>
    simp only [List.foldl_nil, List.sum_nil, add_zero]
    cases heap[a]? <;> rfl
  | cons s ss ih =>
    rw [List.foldl_cons, ih, reportStep, List.getElem?_modify_eq]
    cases heap[a]? <;>
      simp [Geant4eSteppingAction.UserSteppingAction, add_assoc]

/-- The manager's `Propagate` leaves the engine and the manager untouched. -/
theorem Propagate_frame (ext : Collaborators) (w : World) (st : G4ErrorFreeTrajState)
    (t : G4ErrorSurfaceTarget) (m : G4ErrorMode) :
    (G4ErrorPropagatorManager.Propagate ext w st t m).2.self = w.self ∧
      (G4ErrorPropagatorManager.Propagate ext w st t m).2.theG4eManager = w.theG4eManager ∧
      (G4ErrorPropagatorManager.Propagate ext w st t m).2.heap.length = w.heap.length := by
  refine ⟨rfl, rfl, ?_⟩
  simp only [G4ErrorPropagatorManager.Propagate]
  cases w.theG4eManager.userAction with
  | none => rfl
  | some a => exact foldl_reportStep_length a _ _

/-- The track length held at address `a` after the manager's `Propagate`, when
the action at `a` is the registered one: the steps of the call are added. -/
theorem Propagate_trackLength (ext : Collaborators) (w : World) (st : G4ErrorFreeTrajState)
    (t : G4ErrorSurfaceTarget) (m : G4ErrorMode) (a : Nat)
    (h : w.theG4eManager.userAction = some a) :
    (G4ErrorPropagatorManager.Propagate ext w st t m).2.heap[a]? =
      w.heap[a]?.map (fun act => ⟨act.theTrackLength +
        (ext.Propagate (decide (0 < w.theG4eManager.initGeant4eCalls)) st t m).steps.sum⟩) := by
  simp only [G4ErrorPropagatorManager.Propagate, h]
  exact foldl_reportStep_getElem a _ _

theorem lazyInit_of_some (w : World) (a : Nat) (h : w.self.theSteppingAction = some a) :
    lazyInit w = w := by
  simp [lazyInit, h]

theorem Ready_iff (w : World) :
    Ready w ↔ ∃ a, w.self.theSteppingAction = some a ∧ a < w.heap.length ∧
      w.theG4eManager.userAction = some a ∧ 0 < w.theG4eManager.initGeant4eCalls := by
  unfold Ready
  cases w.self.theSteppingAction <;> simp

theorem lazyInit_of_Ready (w : World) (h : Ready w) : lazyInit w = w := by
  obtain ⟨a, ha, -⟩ := (Ready_iff w).1 h
  exact lazyInit_of_some w a ha

theorem resetSteppingAction_of_Ready (w : World) (h : Ready w) :
    ∃ a, w.self.theSteppingAction = some a ∧ a < w.heap.length ∧
      w.theG4eManager.userAction = some a ∧
      resetSteppingAction w =
        some { w with heap := w.heap.modify Geant4eSteppingAction.reset a } := by
  obtain ⟨a, ha, hlt, hu, -⟩ := (Ready_iff w).1 h
  exact ⟨a, ha, hlt, hu, by simp [resetSteppingAction, ha, hlt]⟩

/-- After the reset the accumulator reads zero. -/
theorem readTrackLength_after_reset (w : World) (a : Nat)
    (ha : w.self.theSteppingAction = some a) (hlt : a < w.heap.length) :
    readTrackLength { w with heap := w.heap.modify Geant4eSteppingAction.reset a } = some 0 := by
  simp [readTrackLength, ha, List.getElem?_modify_eq, List.getElem?_eq_getElem hlt,
    Geant4eSteppingAction.reset, Geant4eSteppingAction.trackLength]

/-- With the track length read first, `propagateWithPath` on a Ready engine
returns the path length 0, whatever steps the integrator reports. -/
theorem propagateWithPathVia_trackLengthFirst (prop : World → TrajectoryStateOnSurface × World)
    (w : World) (h : Ready w) :
    ((propagateWithPathVia prop ArgumentOrder.trackLengthFirst w).1).map Prod.snd = some 0 := by
  obtain ⟨a, ha, hlt, -, hr⟩ := resetSteppingAction_of_Ready w h
  simp [propagateWithPathVia, hr, readTrackLength_after_reset w a ha hlt]

/-- With `propagate` evaluated first, `propagateWithPathPlane` on a Ready
engine returns the sum of the steps the integrator reported in this call. -/
theorem propagateWithPathPlane_propagateFirst (ext : Collaborators) (w : World)
    (ftsStart : FreeTrajectoryState) (pDest : Plane) (h : Ready w) :
    ((propagateWithPathPlane ext ArgumentOrder.propagateFirst w ftsStart pDest).1).map
        Prod.snd = some (planeOutcome ext w ftsStart pDest).steps.sum := by
  obtain ⟨a, ha, hlt, hu, hr⟩ := resetSteppingAction_of_Ready w h
  have hl : lazyInit { w with heap := w.heap.modify Geant4eSteppingAction.reset a } =
      { w with heap := w.heap.modify Geant4eSteppingAction.reset a } :=
    lazyInit_of_some _ a ha
  have hw : lazyInit w = w := lazyInit_of_some w a ha
  simp only [propagateWithPathPlane, propagateWithPathVia, hr, propagatePlane_eq, hl]
  have ht := Propagate_trackLength ext
    { w with heap := w.heap.modify Geant4eSteppingAction.reset a }
    (initialTrajStatePlane { w with heap := w.heap.modify Geant4eSteppingAction.reset a }
      ftsStart) (planeTarget ext pDest)
    (selectMode { w with heap := w.heap.modify Geant4eSteppingAction.reset a }) a hu
  simp only [readTrackLength]
  have hs : (G4ErrorPropagatorManager.Propagate ext
      { w with heap := w.heap.modify Geant4eSteppingAction.reset a }
      (initialTrajStatePlane { w with heap := w.heap.modify Geant4eSteppingAction.reset a }
        ftsStart) (planeTarget ext pDest)
      (selectMode { w with heap := w.heap.modify Geant4eSteppingAction.reset a })).2.self.theSteppingAction
        = some a := ha
  rw [hs]
  simp only [ht, List.getElem?_modify_eq, List.getElem?_eq_getElem hlt]
  simp [Geant4eSteppingAction.reset, Geant4eSteppingAction.trackLength, planeOutcome, hw,
    initialTrajStatePlane, particleNameFor, selectMode]

/-- With `propagate` evaluated first, `propagateWithPathCylinder` on a Ready
engine returns the sum of the steps the integrator reported in this call. -/
theorem propagateWithPathCylinder_propagateFirst (ext : Collaborators) (w : World)
    (ftsStart : FreeTrajectoryState) (cDest : Cylinder) (h : Ready w) :
    ((propagateWithPathCylinder ext ArgumentOrder.propagateFirst w ftsStart cDest).1).map
        Prod.snd = some (cylinderOutcome ext w ftsStart cDest).steps.sum := by
  obtain ⟨a, ha, hlt, hu, hr⟩ := resetSteppingAction_of_Ready w h
  simp only [propagateWithPathCylinder, propagateWithPathVia, hr, propagateCylinder_eq]
  have ht := Propagate_trackLength ext
    { w with heap := w.heap.modify Geant4eSteppingAction.reset a }
    (initialTrajStateCylinder { w with heap := w.heap.modify Geant4eSteppingAction.reset a }
      ftsStart) (cylinderTarget cDest)
    (selectMode { w with heap := w.heap.modify Geant4eSteppingAction.reset a }) a hu
  simp only [readTrackLength]
  have hs : (G4ErrorPropagatorManager.Propagate ext
      { w with heap := w.heap.modify Geant4eSteppingAction.reset a }
      (initialTrajStateCylinder { w with heap := w.heap.modify Geant4eSteppingAction.reset a }
        ftsStart) (cylinderTarget cDest)
      (selectMode { w with heap := w.heap.modify Geant4eSteppingAction.reset a })).2.self.theSteppingAction
        = some a := ha
  rw [hs]
  simp only [ht, List.getElem?_modify_eq, List.getElem?_eq_getElem hlt]
  simp [Geant4eSteppingAction.reset, Geant4eSteppingAction.trackLength, cylinderOutcome,
    initialTrajStateCylinder, particleNameFor, selectMode]

theorem propagatePlane_frame (ext : Collaborators) (w : World) (f : FreeTrajectoryState)
    (p : Plane) (a : Nat) (h : w.self.theSteppingAction = some a) :
    Frame w (propagatePlane ext w f p).2 := by
  rw [propagatePlane_eq, lazyInit_of_some w a h]
  exact Propagate_frame ext w _ _ _

theorem propagateCylinder_frame (ext : Collaborators) (w : World) (f : FreeTrajectoryState)
    (c : Cylinder) : Frame w (propagateCylinder ext w f c).2 := by
  rw [propagateCylinder_eq]
  exact Propagate_frame ext w _ _ _

theorem Frame.refl (w : World) : Frame w w :=
  ⟨rfl, rfl, rfl⟩

theorem Frame.trans {w1 w2 w3 : World} (h12 : Frame w1 w2) (h23 : Frame w2 w3) :
    Frame w1 w3 :=
  ⟨h23.1.trans h12.1, h23.2.1.trans h12.2.1, h23.2.2.trans h12.2.2⟩

theorem resetSteppingAction_frame (w w1 : World) (h : resetSteppingAction w = some w1) :
    Frame w w1 := by
  unfold resetSteppingAction at h
  split at h
  · exact absurd h (by simp)
  · split at h
    · simp only [Option.some.injEq] at h
      subst h
      exact ⟨rfl, rfl, by simp⟩
    · exact absurd h (by simp)

theorem propagateWithPathVia_frame (prop : World → TrajectoryStateOnSurface × World)
    (order : ArgumentOrder) (w : World)
    (hprop : ∀ w1, Frame w w1 → Frame w1 (prop w1).2) :
    Frame w (propagateWithPathVia prop order w).2 := by
  unfold propagateWithPathVia
  cases hr : resetSteppingAction w with
  | none => exact Frame.refl w
  | some w1 =>
    have h1 : Frame w w1 := resetSteppingAction_frame w w1 hr
    have h2 : Frame w (prop w1).2 := h1.trans (hprop w1 h1)
    cases order with
    | propagateFirst =>
      simp only
      cases readTrackLength (prop w1).2 <;> exact h2
    | trackLengthFirst =>
      simp only
      cases readTrackLength w1 with
      | none => exact h1
      | some len => exact h2

/-- A call on an engine that holds a stepping action changes neither the
engine nor the manager, and allocates nothing. -/
theorem exec_frame (ext : Collaborators) (order : ArgumentOrder) (w : World) (c : Call)
    (a : Nat) (h : w.self.theSteppingAction = some a) :
    Frame w (c.exec ext order w).1 := by
  cases c with
  | propagatePlane f p => exact propagatePlane_frame ext w f p a h
  | propagateCylinder f cd => exact propagateCylinder_frame ext w f cd
  | propagateWithPathPlane f p =>
    refine propagateWithPathVia_frame _ order w ?_
    intro w1 h1
    exact propagatePlane_frame ext w1 f p a (by rw [h1.1]; exact h)
  | propagateWithPathCylinder f cd =>
    refine propagateWithPathVia_frame _ order w ?_
    intro w1 _
    exact propagateCylinder_frame ext w1 f cd

theorem runCalls_frame (ext : Collaborators) (order : ArgumentOrder) (calls : List Call)
    (w : World) (a : Nat) (h : w.self.theSteppingAction = some a) :
    Frame w (runCalls ext order w calls) := by
  induction calls generalizing w with
  | nil => exact Frame.refl w
  | cons c cs ih =>
    have h1 : Frame w (c.exec ext order w).1 := exec_frame ext order w c a h
    simp only [runCalls]
    split
    · exact h1.trans (ih _ (by rw [h1.1]; exact h))
    · exact h1

theorem Ready_of_frame {w w1 : World} (hf : Frame w w1) (h : Ready w) : Ready w1 := by
  obtain ⟨a, ha, hlt, hu, hi⟩ := (Ready_iff w).1 h
  rw [Ready_iff]
  exact ⟨a, by rw [hf.1]; exact ha, by rw [hf.2.2]; exact hlt, by rw [hf.2.1]; exact hu,
    by rw [hf.2.1]; exact hi⟩

theorem exec_initOnce (ext : Collaborators) (order : ArgumentOrder) (w : World) (c : Call)
    (h : InitOnce w) : InitOnce (c.exec ext order w).1 := by
  cases hs : w.self.theSteppingAction with
  | some a =>
    have hf := exec_frame ext order w c a hs
    unfold InitOnce at h ⊢
    rw [hf.1, hf.2.1, hf.2.2]
    exact h
  | none =>
    have h0 : w.theG4eManager.initGeant4eCalls = 0 ∧
        w.theG4eManager.setUserActionCalls = 0 ∧ w.heap.length = 0 := by
      simpa [InitOnce, hs] using h
    cases c with
    | propagatePlane f p =>
      have hl : (lazyInit w).self.theSteppingAction = some w.heap.length := by
        simp [lazyInit, hs, SetUserAction, newSteppingAction, InitGeant4e]
      have hf : Frame (lazyInit w) (propagatePlane ext w f p).2 := by
        rw [propagatePlane_eq]
        exact Propagate_frame ext _ _ _ _
      show InitOnce (propagatePlane ext w f p).2
      unfold InitOnce
      rw [hf.1, hf.2.1, hf.2.2, hl]
      simp [lazyInit, hs, SetUserAction, newSteppingAction, InitGeant4e, h0.1, h0.2.1, h0.2.2]
    | propagateCylinder f cd =>
      have hf := propagateCylinder_frame ext w f cd
      show InitOnce (propagateCylinder ext w f cd).2
      unfold InitOnce at h ⊢
      rw [hf.1, hf.2.1, hf.2.2]
      exact h
    | propagateWithPathPlane f p =>
      have : (Call.propagateWithPathPlane f p).exec ext order w = (w, false) := by
        simp [Call.exec, propagateWithPathPlane, propagateWithPathVia, resetSteppingAction, hs]
      rw [this]
      exact h
    | propagateWithPathCylinder f cd =>
      have : (Call.propagateWithPathCylinder f cd).exec ext order w = (w, false) := by
        simp [Call.exec, propagateWithPathCylinder, propagateWithPathVia, resetSteppingAction,
          hs]
      rw [this]
      exact h

theorem runCalls_initOnce (ext : Collaborators) (order : ArgumentOrder) (calls : List Call)
    (w : World) (h : InitOnce w) : InitOnce (runCalls ext order w calls) := by
  induction calls generalizing w with
  | nil => exact h
  | cons c cs ih =>
    have h1 := exec_initOnce ext order w c h
    simp only [runCalls]
    split
    · exact ih _ h1
    · exact h1

theorem InitOnce_bounds (w : World) (h : InitOnce w) :
    w.theG4eManager.initGeant4eCalls ≤ 1 ∧ w.theG4eManager.setUserActionCalls ≤ 1 ∧
      w.heap.length ≤ 1 := by
  unfold InitOnce at h
  cases hs : w.self.theSteppingAction <;> rw [hs] at h <;> simp only at h <;> omega

/-- The result of the plane overload does not depend on the heap. -/
theorem propagatePlane_result_heap (ext : Collaborators) (w : World)
    (heap : List Geant4eSteppingAction) (f : FreeTrajectoryState) (p : Plane) :
    (propagatePlane ext { w with heap := heap } f p).1 = (propagatePlane ext w f p).1 := by
  cases h : w.self.theSteppingAction <;>
    simp [propagatePlane_eq, assembleResult, planeOutcome, lazyInit, h, SetUserAction,
      newSteppingAction, InitGeant4e, initialTrajStatePlane, particleNameFor, selectMode]

/-- The result of the cylinder overload does not depend on the heap. -/
theorem propagateCylinder_result_heap (ext : Collaborators) (w : World)
    (heap : List Geant4eSteppingAction) (f : FreeTrajectoryState) (c : Cylinder) :
    (propagateCylinder ext { w with heap := heap } f c).1 = (propagateCylinder ext w f c).1 :=
  rfl

/-- On a Ready engine `propagateWithPath` completes, and the state it returns
is the one `prop` returns on the engine with the accumulator reset. -/
theorem propagateWithPathVia_of_Ready (prop : World → TrajectoryStateOnSurface × World)
    (order : ArgumentOrder) (w : World) (h : Ready w)
    (hprop : ∀ w1, Frame w w1 → Frame w1 (prop w1).2) :
    ∃ a len, w.self.theSteppingAction = some a ∧
      (propagateWithPathVia prop order w).1 =
        some ((prop { w with heap := w.heap.modify Geant4eSteppingAction.reset a }).1, len) := by
  obtain ⟨a, ha, hlt, -, hr⟩ := resetSteppingAction_of_Ready w h
  have h1 := resetSteppingAction_frame w _ hr
  have h2 := h1.trans (hprop _ h1)
  cases order with
  | trackLengthFirst =>
    refine ⟨a, 0, ha, ?_⟩
    simp [propagateWithPathVia, hr, readTrackLength_after_reset w a ha hlt]
  | propagateFirst =>
    have hlt2 : a < (prop { w with
        heap := w.heap.modify Geant4eSteppingAction.reset a }).2.heap.length := by
      rw [h2.2.2]; exact hlt
    have hs : (prop { w with
        heap := w.heap.modify Geant4eSteppingAction.reset a }).2.self.theSteppingAction =
          some a := by
      rw [h2.1]; exact ha
    refine ⟨a, ((prop { w with
        heap := w.heap.modify Geant4eSteppingAction.reset a }).2.heap[a]).trackLength, ha, ?_⟩
    simp [propagateWithPathVia, hr, readTrackLength, hs, List.getElem?_eq_getElem hlt2]

theorem momentum_roundTrip (v : GlobalVector) :
    (hep3VectorToGlobalVector (globalVectorToHep3Vector (v.mul GeV))).div GeV = v := by
  cases v
  simp [hep3VectorToGlobalVector, globalVectorToHep3Vector, GlobalVector.mul,
    GlobalVector.div, GeV]

/-- The lazy initialisation touches neither the configured direction, nor the
field, nor the particle name. -/
theorem lazyInit_members (w : World) :
    (lazyInit w).self.propagationDirection = w.self.propagationDirection ∧
      (lazyInit w).self.theField = w.self.theField ∧
      (lazyInit w).self.theParticleName = w.self.theParticleName := by
  cases h : w.self.theSteppingAction <;>
    simp [lazyInit, h, SetUserAction, newSteppingAction, InitGeant4e]

theorem selectMode_eq_claimed (w : World) :
    selectMode w = claimedDirectionMode w.self.propagationDirection := by
  unfold selectMode
  cases w.self.propagationDirection <;> simp [claimedDirectionMode]

theorem selectMode_lazyInit (w : World) :
    selectMode (lazyInit w) = claimedDirectionMode w.self.propagationDirection := by
  rw [selectMode_eq_claimed, (lazyInit_members w).1]

theorem particleNameFor_eq_claimed (w : World) (charge : Int) :
    particleNameFor w charge = claimedParticleIdentity w.self.theParticleName charge := by
  unfold particleNameFor claimedParticleIdentity
  by_cases h : 0 < charge
  · simp [h]
  · have h1 : ¬ charge > 0 := h
    simp [h, h1]

theorem particleNameFor_lazyInit (w : World) (charge : Int) :
    particleNameFor (lazyInit w) charge =
      claimedParticleIdentity w.self.theParticleName charge := by
  rw [particleNameFor_eq_claimed, (lazyInit_members w).2.2]

/-! ## The claims -/

/-- C1 (the code does not guarantee the claim).  `propagateWithPath` returns
`TsosPP(propagate(...), theSteppingAction->trackLength())`; the total is an
argument of the same call as `propagate`, so it may be read before `propagate`
runs.  On the Ready sample engine, with an integrator that reports one step of
length 100 in the call, the path length returned is 0 for the plane and for
the cylinder when the track length is evaluated first, and 100 only when
`propagate` is evaluated first. -/
theorem C1_pathLength_may_be_read_before_propagate :
    Ready readyEngine ∧
      (planeOutcome idleIntegrator readyEngine sampleState samplePlane).steps.sum = 100 ∧
      (cylinderOutcome idleIntegrator readyEngine sampleState sampleCylinder).steps.sum = 100 ∧
      ((propagateWithPathPlane idleIntegrator ArgumentOrder.trackLengthFirst readyEngine
        sampleState samplePlane).1).map Prod.snd = some 0 ∧
      ((propagateWithPathCylinder idleIntegrator ArgumentOrder.trackLengthFirst readyEngine
        sampleState sampleCylinder).1).map Prod.snd = some 0 ∧
      ((propagateWithPathPlane idleIntegrator ArgumentOrder.propagateFirst readyEngine
        sampleState samplePlane).1).map Prod.snd = some 100 := by
  have hR : Ready readyEngine := by decide
  refine ⟨hR, ?_, ?_, propagateWithPathVia_trackLengthFirst _ _ hR,
    propagateWithPathVia_trackLengthFirst _ _ hR, ?_⟩
  · simp [planeOutcome, idleIntegrator]
  · simp [cylinderOutcome, idleIntegrator]
  · rw [propagateWithPathPlane_propagateFirst _ _ _ _ hR]
    simp [planeOutcome, idleIntegrator]

/-- C2 (the code does not do what the claim says).  The constructor sets
`theSteppingAction` to the null pointer and `propagateWithPath` dereferences
it without a check: on a freshly constructed engine both overloads of
`propagateWithPath` stop at `theSteppingAction->reset()` and return nothing,
in either evaluation order, and this is still so after a cylinder `propagate`
has been made on the engine. -/
theorem C2_propagateWithPath_dereferences_null_accumulator (ext : Collaborators)
    (order : ArgumentOrder) (field : MagneticFieldPtr) (particleName : String)
    (dir : PropagationDirection) (ftsStart : FreeTrajectoryState) (pDest : Plane)
    (cDest : Cylinder) :
    Uninitialized (Geant4ePropagator.ctor field particleName dir) ∧
      (propagateWithPathPlane ext order (Geant4ePropagator.ctor field particleName dir)
        ftsStart pDest).1 = none ∧
      (propagateWithPathCylinder ext order (Geant4ePropagator.ctor field particleName dir)
        ftsStart cDest).1 = none ∧
      (propagateWithPathCylinder ext order
        (propagateCylinder ext (Geant4ePropagator.ctor field particleName dir)
          ftsStart cDest).2 ftsStart cDest).1 = none := by
  refine ⟨rfl, rfl, rfl, rfl⟩

/-- C3 (the code does not do what the claim says for the cylinder).  On a
freshly constructed engine the plane overload of `propagate` performs the lazy
initialisation and leaves the engine Ready, with `InitGeant4e` run once and one
stepping action created and registered; the cylinder overload has no such
block: it invokes the integrator uninitialised and leaves the engine exactly as
constructed, not Ready. -/
theorem C3_cylinder_propagate_skips_lazy_init (ext : Collaborators)
    (field : MagneticFieldPtr) (particleName : String) (dir : PropagationDirection)
    (ftsStart : FreeTrajectoryState) (pDest : Plane) (cDest : Cylinder) :
    (Ready (propagatePlane ext (Geant4ePropagator.ctor field particleName dir)
        ftsStart pDest).2 ∧
      (propagatePlane ext (Geant4ePropagator.ctor field particleName dir)
        ftsStart pDest).2.theG4eManager = ⟨1, 1, some 0⟩) ∧
      (propagateCylinder ext (Geant4ePropagator.ctor field particleName dir)
        ftsStart cDest).2 = Geant4ePropagator.ctor field particleName dir ∧
      ¬ Ready (propagateCylinder ext (Geant4ePropagator.ctor field particleName dir)
        ftsStart cDest).2 ∧
      cylinderOutcome ext (Geant4ePropagator.ctor field particleName dir) ftsStart cDest =
        ext.Propagate false
          (initialTrajStateCylinder (Geant4ePropagator.ctor field particleName dir) ftsStart)
          (cylinderTarget cDest) (selectMode (Geant4ePropagator.ctor field particleName dir)) := by
  have hc : (propagateCylinder ext (Geant4ePropagator.ctor field particleName dir)
      ftsStart cDest).2 = Geant4ePropagator.ctor field particleName dir := rfl
  refine ⟨⟨?_, rfl⟩, hc, ?_, rfl⟩
  · rw [Ready_iff]
    refine ⟨0, rfl, ?_, rfl, ?_⟩
    · rw [propagatePlane_eq]
      rw [(Propagate_frame ext _ _ _ _).2.2]
      simp [lazyInit, Geant4ePropagator.ctor, SetUserAction, newSteppingAction, InitGeant4e]
    · show 0 < 1
      decide
  · rw [hc, Ready_iff]
    rintro ⟨a, ha, -⟩
    simp [Geant4ePropagator.ctor] at ha

/-- C4.  The Uninitialized to Ready transition happens at most once: over
every sequence of `propagate` and `propagateWithPath` calls on a freshly
constructed engine, `InitGeant4e` and `SetUserAction` have each run at most
once and at most one stepping action has been allocated; and from a Ready
engine every sequence of calls leaves the engine with the same stepping
action, leaves the manager as it was (no further initialisation or
registration), allocates nothing, and leaves the engine Ready. -/
theorem C4_lazy_init_at_most_once (ext : Collaborators) (order : ArgumentOrder)
    (field : MagneticFieldPtr) (particleName : String) (dir : PropagationDirection)
    (calls : List Call) (w : World) (later : List Call) (hw : Ready w) :
    ((runCalls ext order (Geant4ePropagator.ctor field particleName dir)
          calls).theG4eManager.initGeant4eCalls ≤ 1 ∧
      (runCalls ext order (Geant4ePropagator.ctor field particleName dir)
          calls).theG4eManager.setUserActionCalls ≤ 1 ∧
      (runCalls ext order (Geant4ePropagator.ctor field particleName dir)
          calls).heap.length ≤ 1) ∧
    ((runCalls ext order w later).self.theSteppingAction = w.self.theSteppingAction ∧
      (runCalls ext order w later).theG4eManager = w.theG4eManager ∧
      (runCalls ext order w later).heap.length = w.heap.length ∧
      Ready (runCalls ext order w later)) := by
  constructor
  · exact InitOnce_bounds _
      (runCalls_initOnce ext order calls _ ⟨rfl, rfl, rfl⟩)
  · obtain ⟨a, ha, -⟩ := (Ready_iff w).1 hw
    have hf := runCalls_frame ext order later w a ha
    exact ⟨by rw [hf.1], hf.2.1, hf.2.2, Ready_of_frame hf hw⟩

/-- C4, at a concrete input: a fresh engine driven through a cylinder call, a
plane call, a path-aware plane call and another plane call, and the Ready
sample engine driven through a plane call and a path-aware cylinder call. -/
theorem C4_lazy_init_at_most_once_witness :
    Ready readyEngine ∧
    (((runCalls idleIntegrator ArgumentOrder.propagateFirst
          (Geant4ePropagator.ctor 7 "mu" PropagationDirection.alongMomentum)
          [Call.propagateCylinder sampleState sampleCylinder,
            Call.propagatePlane sampleState samplePlane,
            Call.propagateWithPathPlane sampleState samplePlane,
            Call.propagatePlane sampleState samplePlane]).theG4eManager.initGeant4eCalls ≤ 1 ∧
      (runCalls idleIntegrator ArgumentOrder.propagateFirst
          (Geant4ePropagator.ctor 7 "mu" PropagationDirection.alongMomentum)
          [Call.propagateCylinder sampleState sampleCylinder,
            Call.propagatePlane sampleState samplePlane,
            Call.propagateWithPathPlane sampleState samplePlane,
            Call.propagatePlane sampleState samplePlane]).theG4eManager.setUserActionCalls ≤ 1 ∧
      (runCalls idleIntegrator ArgumentOrder.propagateFirst
          (Geant4ePropagator.ctor 7 "mu" PropagationDirection.alongMomentum)
          [Call.propagateCylinder sampleState sampleCylinder,
            Call.propagatePlane sampleState samplePlane,
            Call.propagateWithPathPlane sampleState samplePlane,
            Call.propagatePlane sampleState samplePlane]).heap.length ≤ 1) ∧
    ((runCalls idleIntegrator ArgumentOrder.propagateFirst readyEngine
          [Call.propagatePlane sampleState samplePlane,
            Call.propagateWithPathCylinder sampleState sampleCylinder]).self.theSteppingAction =
        readyEngine.self.theSteppingAction ∧
      (runCalls idleIntegrator ArgumentOrder.propagateFirst readyEngine
          [Call.propagatePlane sampleState samplePlane,
            Call.propagateWithPathCylinder sampleState sampleCylinder]).theG4eManager =
        readyEngine.theG4eManager ∧
      (runCalls idleIntegrator ArgumentOrder.propagateFirst readyEngine
          [Call.propagatePlane sampleState samplePlane,
            Call.propagateWithPathCylinder sampleState sampleCylinder]).heap.length =
        readyEngine.heap.length ∧
      Ready (runCalls idleIntegrator ArgumentOrder.propagateFirst readyEngine
          [Call.propagatePlane sampleState samplePlane,
            Call.propagateWithPathCylinder sampleState sampleCylinder]))) :=
  ⟨by decide,
    C4_lazy_init_at_most_once idleIntegrator ArgumentOrder.propagateFirst 7 "mu"
      PropagationDirection.alongMomentum
      [Call.propagateCylinder sampleState sampleCylinder,
        Call.propagatePlane sampleState samplePlane,
        Call.propagateWithPathPlane sampleState samplePlane,
        Call.propagatePlane sampleState samplePlane]
      readyEngine
      [Call.propagatePlane sampleState samplePlane,
        Call.propagateWithPathCylinder sampleState sampleCylinder]
      (by decide)⟩

/-- C5.  The result of `propagate` does not depend on the error matrix the
caller attached to the input state: two input states that agree on position,
momentum and charge give the same result and the same state after the call,
for the plane and for the cylinder, on the same engine and with the same
integrator. -/
theorem C5_result_independent_of_input_covariance (ext : Collaborators) (w : World)
    (fts1 fts2 : FreeTrajectoryState) (pDest : Plane) (cDest : Cylinder)
    (hpos : fts1.position = fts2.position) (hmom : fts1.momentum = fts2.momentum)
    (hq : fts1.charge = fts2.charge) :
    propagatePlane ext w fts1 pDest = propagatePlane ext w fts2 pDest ∧
      propagateCylinder ext w fts1 cDest = propagateCylinder ext w fts2 cDest := by
  constructor
  · simp only [propagatePlane_eq, assembleResult, planeOutcome, initialTrajStatePlane, hpos,
      hmom, hq]
  · simp only [propagateCylinder_eq, assembleResult, cylinderOutcome, initialTrajStateCylinder,
      hpos, hmom, hq]

/-- C5, at a concrete input: the sample state without an error matrix and the
same state with the analyzer's error matrix attached. -/
theorem C5_result_independent_of_input_covariance_witness :
    (sampleState.position = sampleStateWithError.position ∧
      sampleState.momentum = sampleStateWithError.momentum ∧
      sampleState.charge = sampleStateWithError.charge ∧
      sampleState.curvilinearError ≠ sampleStateWithError.curvilinearError) ∧
    (propagatePlane idleIntegrator readyEngine sampleState samplePlane =
        propagatePlane idleIntegrator readyEngine sampleStateWithError samplePlane ∧
      propagateCylinder idleIntegrator readyEngine sampleState sampleCylinder =
        propagateCylinder idleIntegrator readyEngine sampleStateWithError sampleCylinder) :=
  ⟨⟨rfl, rfl, rfl, by simp [sampleState, sampleStateWithError]⟩,
    C5_result_independent_of_input_covariance idleIntegrator readyEngine sampleState
      sampleStateWithError samplePlane sampleCylinder rfl rfl rfl⟩

/-- C6 (the code does not do what the claim says).  The two overloads hand the
integrator different initial error matrices: the plane overload builds
`G4ErrorTrajErr(5, 1)`, the identity, the cylinder overload
`G4ErrorTrajErr(5, 0)`, the zero matrix.  For every engine and input state the
two matrices differ (entry (0,0) is 1 against 0), and with an integrator that
hands the state back unchanged the difference shows in the results. -/
theorem C6_initial_error_matrices_differ (w : World) (ftsStart : FreeTrajectoryState)
    (pDest : Plane) (cDest : Cylinder) :
    (initialTrajStatePlane w ftsStart).error ≠ (initialTrajStateCylinder w ftsStart).error ∧
      (planeOutcome idleIntegrator w ftsStart pDest).trajState.error 0 0 = 1 ∧
      (cylinderOutcome idleIntegrator w ftsStart cDest).trajState.error 0 0 = 0 ∧
      (propagatePlane idleIntegrator w ftsStart pDest).1.curvilinearError.theCovarianceMatrix
        0 0 = 1 ∧
      (propagateCylinder idleIntegrator w ftsStart
        cDest).1.curvilinearError.theCovarianceMatrix 0 0 = 0 := by
  refine ⟨?_, ?_, ?_, ?_, ?_⟩
  · intro h
    have h00 := congrFun (congrFun h 0) 0
    simp [initialTrajStatePlane, initialTrajStateCylinder, G4ErrorTrajErr.ctor] at h00
  · simp [planeOutcome, idleIntegrator, initialTrajStatePlane, G4ErrorTrajErr.ctor]
  · simp [cylinderOutcome, idleIntegrator, initialTrajStateCylinder, G4ErrorTrajErr.ctor]
  · simp [propagatePlane_eq, assembleResult, planeOutcome, idleIntegrator,
      initialTrajStatePlane, G4ErrorTrajErr.ctor]
  · simp [propagateCylinder_eq, assembleResult, cylinderOutcome, idleIntegrator,
      initialTrajStateCylinder, G4ErrorTrajErr.ctor]

/-- C7.  On a Ready engine `propagateWithPath` completes and the state it
returns as first component is the state `propagate` returns for the same
arguments and the same integrator, for the plane and for the cylinder and in
either evaluation order of the arguments of the pair. -/
theorem C7_propagateWithPath_state_eq_propagate (ext : Collaborators) (order : ArgumentOrder)
    (w : World) (ftsStart : FreeTrajectoryState) (pDest : Plane) (cDest : Cylinder)
    (hw : Ready w) :
    ((propagateWithPathPlane ext order w ftsStart pDest).1).map Prod.fst =
        some (propagatePlane ext w ftsStart pDest).1 ∧
      ((propagateWithPathCylinder ext order w ftsStart cDest).1).map Prod.fst =
        some (propagateCylinder ext w ftsStart cDest).1 := by
  obtain ⟨a, ha, -⟩ := (Ready_iff w).1 hw
  constructor
  · obtain ⟨a1, len, -, h⟩ := propagateWithPathVia_of_Ready
      (fun w1 => propagatePlane ext w1 ftsStart pDest) order w hw
      (fun w1 h1 => propagatePlane_frame ext w1 ftsStart pDest a (by rw [h1.1]; exact ha))
    rw [propagateWithPathPlane, h]
    simp only [Option.map_some']
    rw [propagatePlane_result_heap]
  · obtain ⟨a1, len, -, h⟩ := propagateWithPathVia_of_Ready
      (fun w1 => propagateCylinder ext w1 ftsStart cDest) order w hw
      (fun w1 _ => propagateCylinder_frame ext w1 ftsStart cDest)
    rw [propagateWithPathCylinder, h]
    simp only [Option.map_some']
    rw [propagateCylinder_result_heap]

/-- C7, at a concrete input: the Ready sample engine, the sample state and the
sample surfaces. -/
theorem C7_propagateWithPath_state_eq_propagate_witness :
    Ready readyEngine ∧
    (((propagateWithPathPlane idleIntegrator ArgumentOrder.propagateFirst readyEngine
          sampleState samplePlane).1).map Prod.fst =
        some (propagatePlane idleIntegrator readyEngine sampleState samplePlane).1 ∧
      ((propagateWithPathCylinder idleIntegrator ArgumentOrder.propagateFirst readyEngine
          sampleState sampleCylinder).1).map Prod.fst =
        some (propagateCylinder idleIntegrator readyEngine sampleState sampleCylinder).1) :=
  ⟨by decide,
    C7_propagateWithPath_state_eq_propagate idleIntegrator ArgumentOrder.propagateFirst
      readyEngine sampleState samplePlane sampleCylinder (by decide)⟩

/-- C8.  The status code of the integrator has no effect on what `propagate`
returns: replacing the status the integrator returns by any other value
changes neither the result nor the state after the call, for the plane and for
the cylinder; and the result is the one assembled from the state object as the
integrator left it. -/
theorem C8_status_code_ignored (ext : Collaborators) (status : Int) (w : World)
    (ftsStart : FreeTrajectoryState) (pDest : Plane) (cDest : Cylinder) :
    (planeOutcome (withStatus status ext) w ftsStart pDest).ierr = status ∧
      (cylinderOutcome (withStatus status ext) w ftsStart cDest).ierr = status ∧
      propagatePlane (withStatus status ext) w ftsStart pDest =
        propagatePlane ext w ftsStart pDest ∧
      propagateCylinder (withStatus status ext) w ftsStart cDest =
        propagateCylinder ext w ftsStart cDest ∧
      (propagatePlane ext w ftsStart pDest).1 =
        assembleResult ext (lazyInit w) ftsStart (Surface.plane pDest)
          (planeOutcome ext w ftsStart pDest).trajState ∧
      (propagateCylinder ext w ftsStart cDest).1 =
        assembleResult ext w ftsStart (Surface.cylinder cDest)
          (cylinderOutcome ext w ftsStart cDest).trajState :=
  ⟨rfl, rfl, rfl, rfl, rfl, rfl⟩

/-- C9.  Every result of `propagate` carries the surface side
`atCenterOfSurface` and is attached to the destination surface the caller
passed, for every engine (so every configured direction), input state, target
and integrator. -/
theorem C9_surface_side_atCenterOfSurface (ext : Collaborators) (w : World)
    (ftsStart : FreeTrajectoryState) (pDest : Plane) (cDest : Cylinder) :
    ((propagatePlane ext w ftsStart pDest).1.surfaceSide = SurfaceSide.atCenterOfSurface ∧
        (propagatePlane ext w ftsStart pDest).1.surface = Surface.plane pDest) ∧
      ((propagateCylinder ext w ftsStart cDest).1.surfaceSide =
          SurfaceSide.atCenterOfSurface ∧
        (propagateCylinder ext w ftsStart cDest).1.surface = Surface.cylinder cDest) :=
  ⟨⟨rfl, rfl⟩, ⟨rfl, rfl⟩⟩

/-- C10.  In exact arithmetic, multiplying a momentum by `GeV`, converting it
to the integrator's vector type, converting it back and dividing by `GeV`
gives the momentum again; hence, if the integrator leaves the momentum of the
state unchanged, the momentum of the result of `propagate` is the momentum of
the input state, for the plane and for the cylinder. -/
theorem C10_momentum_roundTrip (ext : Collaborators) (w : World)
    (ftsStart : FreeTrajectoryState) (pDest : Plane) (cDest : Cylinder) (p : GlobalVector)
    (hmom : ∀ i st t m, (ext.Propagate i st t m).trajState.momentum = st.momentum) :
    (hep3VectorToGlobalVector (globalVectorToHep3Vector (p.mul GeV))).div GeV = p ∧
      (propagatePlane ext w ftsStart pDest).1.globalParameters.momentum =
        ftsStart.momentum ∧
      (propagateCylinder ext w ftsStart cDest).1.globalParameters.momentum =
        ftsStart.momentum := by
  refine ⟨momentum_roundTrip p, ?_, ?_⟩
  · rw [propagatePlane_eq]
    simp only [assembleResult, planeOutcome, hmom, initialTrajStatePlane]
    exact momentum_roundTrip _
  · rw [propagateCylinder_eq]
    simp only [assembleResult, cylinderOutcome, hmom, initialTrajStateCylinder]
    exact momentum_roundTrip _

/-- C10, at a concrete input: the momentum (3, -4, 10) and an integrator that
hands the state back unchanged. -/
theorem C10_momentum_roundTrip_witness :
    (∀ i st t m, (idleIntegrator.Propagate i st t m).trajState.momentum = st.momentum) ∧
    ((hep3VectorToGlobalVector
          (globalVectorToHep3Vector ((⟨3, -4, 10⟩ : GlobalVector).mul GeV))).div GeV =
        ⟨3, -4, 10⟩ ∧
      (propagatePlane idleIntegrator freshEngine sampleState
          samplePlane).1.globalParameters.momentum = sampleState.momentum ∧
      (propagateCylinder idleIntegrator freshEngine sampleState
          sampleCylinder).1.globalParameters.momentum = sampleState.momentum) :=
  ⟨fun _ _ _ _ => rfl,
    C10_momentum_roundTrip idleIntegrator freshEngine sampleState samplePlane sampleCylinder
      ⟨3, -4, 10⟩ (fun _ _ _ _ => rfl)⟩

/-- C11.  The direction mode both overloads give the integrator is selected
from the configured propagation direction: it is backwards exactly when the
direction is `oppositeToMomentum` and forwards for `alongMomentum` and for the
value that is neither; the integrator call of the plane overload and that of
the cylinder overload are made with this mode, and each overload is the result
assembled from that call. -/
theorem C11_direction_mode_from_configured_direction (ext : Collaborators) (w : World)
    (ftsStart : FreeTrajectoryState) (pDest : Plane) (cDest : Cylinder)
    (field : MagneticFieldPtr) (particleName : String) :
    (selectMode (Geant4ePropagator.ctor field particleName
          PropagationDirection.oppositeToMomentum) = G4ErrorMode.PropBackwards ∧
      selectMode (Geant4ePropagator.ctor field particleName
          PropagationDirection.alongMomentum) = G4ErrorMode.PropForwards ∧
      selectMode (Geant4ePropagator.ctor field particleName
          PropagationDirection.anyDirection) = G4ErrorMode.PropForwards) ∧
    (selectMode w = G4ErrorMode.PropBackwards ↔
      w.self.propagationDirection = PropagationDirection.oppositeToMomentum) ∧
    planeOutcome ext w ftsStart pDest =
      ext.Propagate (decide (0 < (lazyInit w).theG4eManager.initGeant4eCalls))
        (initialTrajStatePlane (lazyInit w) ftsStart) (planeTarget ext pDest)
        (claimedDirectionMode w.self.propagationDirection) ∧
    cylinderOutcome ext w ftsStart cDest =
      ext.Propagate (decide (0 < w.theG4eManager.initGeant4eCalls))
        (initialTrajStateCylinder w ftsStart) (cylinderTarget cDest)
        (claimedDirectionMode w.self.propagationDirection) ∧
    propagatePlane ext w ftsStart pDest =
      (assembleResult ext (lazyInit w) ftsStart (Surface.plane pDest)
          (planeOutcome ext w ftsStart pDest).trajState,
        (G4ErrorPropagatorManager.Propagate ext (lazyInit w)
          (initialTrajStatePlane (lazyInit w) ftsStart) (planeTarget ext pDest)
          (claimedDirectionMode w.self.propagationDirection)).2) ∧
    propagateCylinder ext w ftsStart cDest =
      (assembleResult ext w ftsStart (Surface.cylinder cDest)
          (cylinderOutcome ext w ftsStart cDest).trajState,
        (G4ErrorPropagatorManager.Propagate ext w
          (initialTrajStateCylinder w ftsStart) (cylinderTarget cDest)
          (claimedDirectionMode w.self.propagationDirection)).2) := by
  refine ⟨⟨rfl, rfl, rfl⟩, ?_, ?_, ?_, ?_, ?_⟩
  · rw [selectMode_eq_claimed]
    cases w.self.propagationDirection <;> simp [claimedDirectionMode]
  · rw [planeOutcome, selectMode_lazyInit]
  · rw [cylinderOutcome, selectMode_eq_claimed]
  · rw [propagatePlane_eq, selectMode_lazyInit]
  · rw [propagateCylinder_eq, selectMode_eq_claimed]

/-- C12.  The particle identity both overloads give the integrator is the base
name of the engine followed by "+" when the charge of the input state is
positive, by "-" when it is negative, and by "-" when it is 0; the state object
of the plane call and that of the cylinder call carry this name, and the charge
put in the result is the charge the name was derived from. -/
theorem C12_particle_identity_by_charge_sign (ext : Collaborators) (w : World)
    (ftsStart : FreeTrajectoryState) (pDest : Plane) (cDest : Cylinder)
    (field : MagneticFieldPtr) (baseName : String) (dir : PropagationDirection) :
    (particleNameFor (Geant4ePropagator.ctor field baseName dir) 1 = baseName ++ "+" ∧
      particleNameFor (Geant4ePropagator.ctor field baseName dir) (-1) = baseName ++ "-" ∧
      particleNameFor (Geant4ePropagator.ctor field baseName dir) 0 = baseName ++ "-") ∧
    planeOutcome ext w ftsStart pDest =
      ext.Propagate (decide (0 < (lazyInit w).theG4eManager.initGeant4eCalls))
        ⟨claimedParticleIdentity w.self.theParticleName ftsStart.charge,
          globalPointToHep3Vector ftsStart.position,
          globalVectorToHep3Vector (ftsStart.momentum.mul GeV), G4ErrorTrajErr.ctor 1⟩
        (planeTarget ext pDest) (selectMode (lazyInit w)) ∧
    cylinderOutcome ext w ftsStart cDest =
      ext.Propagate (decide (0 < w.theG4eManager.initGeant4eCalls))
        ⟨claimedParticleIdentity w.self.theParticleName ftsStart.charge,
          globalPointToHep3Vector ftsStart.position,
          globalVectorToHep3Vector (ftsStart.momentum.mul GeV), G4ErrorTrajErr.ctor 0⟩
        (cylinderTarget cDest) (selectMode w) ∧
    ((propagatePlane ext w ftsStart pDest).1 =
        assembleResult ext (lazyInit w) ftsStart (Surface.plane pDest)
          (planeOutcome ext w ftsStart pDest).trajState ∧
      (propagatePlane ext w ftsStart pDest).1.globalParameters.charge = ftsStart.charge) ∧
    ((propagateCylinder ext w ftsStart cDest).1 =
        assembleResult ext w ftsStart (Surface.cylinder cDest)
          (cylinderOutcome ext w ftsStart cDest).trajState ∧
      (propagateCylinder ext w ftsStart cDest).1.globalParameters.charge =
        ftsStart.charge) := by
  refine ⟨⟨?_, ?_, ?_⟩, ?_, ?_, ⟨rfl, rfl⟩, ⟨rfl, rfl⟩⟩
  · simp [particleNameFor, Geant4ePropagator.ctor]
  · simp [particleNameFor, Geant4ePropagator.ctor]
  · simp [particleNameFor, Geant4ePropagator.ctor]
  · rw [planeOutcome, initialTrajStatePlane, particleNameFor_lazyInit]
  · rw [cylinderOutcome, initialTrajStateCylinder, particleNameFor_eq_claimed]

/-- C13.  The trajectory parameters of the result of `propagate` carry the
charge of the input state and the field reference of the engine, for the plane
and for the cylinder and whatever the integrator does: with any two
integrators the charge and the field of the results are the same, and with an
integrator that hands back an unrelated state object they are still those of
the input state and of the engine. -/
theorem C13_charge_and_field_not_read_back (ext ext2 : Collaborators) (w : World)
    (ftsStart : FreeTrajectoryState) (pDest : Plane) (cDest : Cylinder) :
    ((propagatePlane ext w ftsStart pDest).1.globalParameters.charge = ftsStart.charge ∧
      (propagatePlane ext w ftsStart pDest).1.globalParameters.magneticField =
        w.self.theField) ∧
    ((propagateCylinder ext w ftsStart cDest).1.globalParameters.charge = ftsStart.charge ∧
      (propagateCylinder ext w ftsStart cDest).1.globalParameters.magneticField =
        w.self.theField) ∧
    ((propagatePlane ext2 w ftsStart pDest).1.globalParameters.charge =
        (propagatePlane ext w ftsStart pDest).1.globalParameters.charge ∧
      (propagatePlane ext2 w ftsStart pDest).1.globalParameters.magneticField =
        (propagatePlane ext w ftsStart pDest).1.globalParameters.magneticField ∧
      (propagateCylinder ext2 w ftsStart cDest).1.globalParameters.charge =
        (propagateCylinder ext w ftsStart cDest).1.globalParameters.charge ∧
      (propagateCylinder ext2 w ftsStart cDest).1.globalParameters.magneticField =
        (propagateCylinder ext w ftsStart cDest).1.globalParameters.magneticField) ∧
    ((propagatePlane scramblingIntegrator w ftsStart pDest).1.globalParameters.charge =
        ftsStart.charge ∧
      (propagateCylinder scramblingIntegrator w ftsStart cDest).1.globalParameters.charge =
        ftsStart.charge) := by
  have hp : ∀ e : Collaborators,
      (propagatePlane e w ftsStart pDest).1.globalParameters.magneticField =
        w.self.theField := by
    intro e
    rw [propagatePlane_eq]
    exact (lazyInit_members w).2.1
  exact ⟨⟨rfl, hp ext⟩, ⟨rfl, rfl⟩, ⟨rfl, (hp ext2).trans (hp ext).symm, rfl, rfl⟩, ⟨rfl, rfl⟩⟩

end Geant4e
